import Mathlib

/-!
Shallow embedding of the spreadsheet ingestion and aggregation pipeline of the
Ztools repository, together with theorems settling the frozen claims about it.

Two source surfaces are embedded:
* the Metric variant (Variant B) — an unnamed client page holding
  `parseNumber`, `toIsoDateString`, `getWeekNumber`, `processExcelFile` and
  `generateCompiledExcel`;
* the Word-Filter variant (Variant A) — `src/app/apps/scheduling/page.tsx`
  holding `isDefaultExcluded`, `extractUniqueWords`, `processExcelData`,
  `toggleWord` and the token-ingestion step of `processAndAddFiles`.

JavaScript dynamic values are embedded as an inductive `JsVal`; numbers are
modelled as rationals (the pipeline performs only parsing, division by 100 and
comparisons, all exact on the inputs it handles); host behaviours used by the
code (`Number`, `parseFloat`, `new Date(string)`, `Date.UTC`, the UTC getters,
`Array.prototype.sort`, the SSF serial-date decoder of the xlsx library) are
modelled from their documented ECMA-262 / library semantics, with the modelled
subset stated in each doc comment.
-/

/-- Removal of surrounding whitespace from a character list. -/
def trimChars (cs : List Char) : List Char :=
  ((cs.dropWhile Char.isWhitespace).reverse.dropWhile Char.isWhitespace).reverse

/-- Model of `String.prototype.trim` (and of the whitespace stripping of
`Number`): surrounding whitespace removed. The whitespace set is the ASCII
one plus the usual control characters — the full JS set also holds exotic
Unicode spaces no pipeline input contains. Implemented on the character list
so concrete runs reduce in the kernel. -/
def jsTrim (s : String) : String := String.mk (trimChars s.toList)

/-- Model of `String.prototype.toLowerCase` (ASCII lowering, which is all the
reserved-phrase comparison needs). -/
def toLowerStr (s : String) : String := String.mk (s.toList.map Char.toLower)

/-- Model of `String.prototype.startsWith`. -/
def startsWithStr (s h : String) : Bool := h.toList.isPrefixOf s.toList

/-- Lexicographic code-point comparison of character lists. -/
def lexLeChars : List Char → List Char → Bool
  | [], _ => true
  | _ :: _, [] => false
  | a :: as, b :: bs => if a = b then lexLeChars as bs else decide (a.toNat < b.toNat)

/-- Lexicographic code-unit string comparison, the order of the JS default
`sort()` and (on fixed-width ASCII date strings) of `localeCompare`. -/
def strLe (a b : String) : Bool := lexLeChars a.toList b.toList

/-- Splitting at `'-'`, accumulator-based (`String.prototype.split('-')`). -/
def splitOnDashAux : List Char → List Char → List String
  | [], acc => [String.mk acc.reverse]
  | c :: r, acc => if c = '-' then String.mk acc.reverse :: splitOnDashAux r []
                   else splitOnDashAux r (c :: acc)

/-- Model of `s.split('-')`. -/
def splitOnDash (s : String) : List String := splitOnDashAux s.toList []

/-- A JavaScript runtime value as it can appear in a decoded grid cell:
`undef` is the value of a missing cell / out-of-range index, `null` the
explicit `defval: null` fill, `num` a finite double (modelled as a rational),
`jsdate` a native `Date` object identified by its epoch-millisecond instant. -/
inductive JsVal where
  | undef
  | null
  | bool (b : Bool)
  | num (q : ℚ)
  | str (s : String)
  | jsdate (ms : ℤ)
deriving DecidableEq, Repr

/-- JavaScript truthiness of a `JsVal` (`NaN` is not modelled; the grids the
pipeline decodes never contain it). `Date` objects are always truthy. -/
def jsTruthy : JsVal → Bool
  | .undef => false
  | .null => false
  | .bool b => b
  | .num q => q != 0
  | .str s => s != ""
  | .jsdate _ => true

/-- Decimal rendering of an integer, as JS `String(n)` renders integral
doubles. -/
def intDecimal (n : ℤ) : String := toString n

/-- Model of the JS `String(v)` conversion. Number rendering is modelled
exactly for integral values (decimal digits, `-` sign); the shortest-round-trip
rendering of non-integral doubles and the host/timezone-dependent rendering of
`Date` objects are outside the model (marked results below) — no claim
evaluates either: in the Word-Filter pipeline all non-empty decoded cells are
formatted strings (`raw: false`), and the falsy branch never reaches them. -/
def jsToString : JsVal → String
  | .undef => "undefined"
  | .null => "null"
  | .bool b => if b then "true" else "false"
  | .num q => if q.den = 1 then intDecimal q.num else "<non-integral double rendering not modelled>"
  | .str s => s
  | .jsdate _ => "<Date rendering not modelled>"

/-- The BLANK sentinel the Word-Filter variant uses for cells that trim to the
empty string. -/
def BLANK : String := "__BLANK__"

/-- Cell-to-token normalization of the Word-Filter variant: the source
computes `String(cellValue || '').trim()` and maps the empty result to the
BLANK sentinel (page.tsx, `extractUniqueWords` / `processExcelData`). A falsy
cell value (missing, null, `0`, `false`, empty string) is coerced to the empty
string before trimming. -/
def jsWord (v : JsVal) : String :=
  let w := jsTrim (jsToString (if jsTruthy v then v else .str ""))
  if w = "" then BLANK else w

/-- Cell access `jsonData[rowIndex]?.[colIndex]`: a missing row or a
too-short row yields `undefined`. -/
def cellAt (g : List (List JsVal)) (r c : ℕ) : JsVal :=
  ((g.getD r []).getD c .undef)

/-! ## Model of JS numeric string parsing -/

/-- Decimal digit test. -/
def isDig (c : Char) : Bool := '0' ≤ c && c ≤ '9'

/-- Hexadecimal digit test. -/
def isHexDig (c : Char) : Bool :=
  isDig c || ('a' ≤ c && c ≤ 'f') || ('A' ≤ c && c ≤ 'F')

/-- Recognizer of the exponent part tail of a decimal literal: either nothing,
or `e`/`E`, an optional sign, and at least one digit, consuming the whole
remainder. -/
def expTail (cs : List Char) : Bool :=
  match cs with
  | [] => true
  | e :: rest =>
    (e = 'e' || e = 'E') &&
      (let rest2 := match rest with
        | '+' :: r => r
        | '-' :: r => r
        | r => r
      rest2 ≠ [] && rest2.all isDig)

/-- Recognizer of an unsigned `StrDecimalLiteral` body (ECMA-262):
`digits [. digits] [exp]`, `. digits [exp]`, or `Infinity`, consuming the
whole input. -/
def decBody (cs : List Char) : Bool :=
  if cs = "Infinity".toList then true
  else
    let intPart := cs.takeWhile isDig
    let rest := cs.dropWhile isDig
    match rest with
    | [] => intPart ≠ []
    | '.' :: r =>
      let frac := r.takeWhile isDig
      let rest2 := r.dropWhile isDig
      (intPart ≠ [] || frac ≠ []) && expTail rest2
    | r => intPart ≠ [] && expTail r

/-- Model of `!isNaN(Number(w))` for a string `w` (ECMA-262 `ToNumber` on
strings): surrounding whitespace is stripped; the empty remainder converts to
`0` (so is numeric); otherwise the remainder must be a signed decimal literal,
`Infinity`, or an unsigned `0x`/`0o`/`0b` radix literal. -/
def jsIsNumericString (w : String) : Bool :=
  let t := jsTrim w
  if t = "" then true
  else
    match t.toList with
    | '0' :: x :: r =>
      if x = 'x' || x = 'X' then r ≠ [] && r.all isHexDig
      else if x = 'o' || x = 'O' then r ≠ [] && r.all (fun c => '0' ≤ c && c ≤ '7')
      else if x = 'b' || x = 'B' then r ≠ [] && r.all (fun c => c = '0' || c = '1')
      else decBody ('0' :: x :: r)
    | '+' :: r => decBody r
    | '-' :: r => decBody r
    | r => decBody r

/-- Value of a digit character. -/
def digVal (c : Char) : ℕ := c.toNat - 48

/-- Value of a list of decimal digits. -/
def digitsVal (cs : List Char) : ℕ := cs.foldl (fun a c => a * 10 + digVal c) 0

/-- Model of `parseFloat(s)` on an already-trimmed string, as a rational:
parses the longest prefix of the form `[+-]? (digits [. digits?] | . digits)
[e[+-]?digits]`, ignores any remainder, and is `none` when no digits occur
(`NaN`). The non-finite `Infinity` literal lies outside the model (no finite
rational value); the pipeline's inputs never contain it. -/
def parseFloatQ (s : String) : Option ℚ :=
  let cs := s.toList
  let (sgn, cs1) : ℚ × List Char :=
    match cs with
    | '+' :: r => (1, r)
    | '-' :: r => (-1, r)
    | r => (1, r)
  let intDs := cs1.takeWhile isDig
  let rest1 := cs1.dropWhile isDig
  let (fracDs, rest2) : List Char × List Char :=
    match rest1 with
    | '.' :: r => (r.takeWhile isDig, r.dropWhile isDig)
    | r => ([], r)
  if intDs = [] ∧ fracDs = [] then none
  else
    let mant : ℚ := sgn * ((digitsVal intDs : ℚ) + (digitsVal fracDs : ℚ) / (10 : ℚ) ^ fracDs.length)
    let expv : ℤ :=
      match rest2 with
      | e :: r =>
        if e = 'e' ∨ e = 'E' then
          let (esgn, r1) : ℤ × List Char :=
            match r with
            | '+' :: r2 => (1, r2)
            | '-' :: r2 => (-1, r2)
            | r2 => (1, r2)
          let eDs := r1.takeWhile isDig
          if eDs = [] then 0 else esgn * (digitsVal eDs : ℤ)
        else 0
      | [] => 0
    some (if 0 ≤ expv then mant * (10 : ℚ) ^ expv.toNat else mant / (10 : ℚ) ^ (-expv).toNat)

/-- Removal of the first occurrence of `%`, as JS `s.replace('%','')` with a
string pattern replaces only the first match. -/
def replaceFirstPercent (s : String) : String :=
  let cs := s.toList
  let before := cs.takeWhile (fun c => c ≠ '%')
  let after := cs.dropWhile (fun c => c ≠ '%')
  String.mk (before ++ after.drop 1)

/-- Embedding of `parseNumber` (Metric variant source): `null`, `undefined`,
`'-'` and `''` map to null; numbers pass through; for strings the first `%` is
removed, the remainder trimmed and given to `parseFloat`, and a string that
contained `%` anywhere is divided by 100; any other value (boolean, `Date`)
falls through to null. -/
def parseNumber : JsVal → Option ℚ
  | .null => none
  | .undef => none
  | .num q => some q
  | .str s =>
    if s = "-" ∨ s = "" then none
    else
      let clean := jsTrim (replaceFirstPercent s)
      match parseFloatQ clean with
      | some q => if s.toList.contains '%' then some (q / 100) else some q
      | none => none
  | .bool _ => none
  | .jsdate _ => none

/-! ## Token classification and filter state (Word-Filter variant) -/

/-- Embedding of `isDefaultExcluded` (page.tsx): a token is excluded by
default when it is the BLANK sentinel, or `!isNaN(Number(word))` holds and the
token does not trim to the empty string, or its lowercase form starts with
the reserved phrase of DSP-initiated work. -/
def isDefaultExcluded (w : String) : Bool :=
  if w = BLANK then true
  else if jsIsNumericString w && !(jsTrim w == "") then true
  else if startsWithStr (toLowerStr w) "dsp initiated work" then true
  else false

/-- The default inclusion flag a token receives at first sight: the negation
of `isDefaultExcluded`, exactly as the ingestion step of
`processAndAddFiles` stores it (`newState[word] = !isDefaultExcluded(word)`). -/
def classifyDefault (w : String) : Bool := !isDefaultExcluded w

/-- The filter state: a JS object mapping tokens to inclusion flags, embedded
as an association list where an update prepends a shadowing binding and lookup
takes the first match. -/
def FilterState : Type := List (String × Bool)

/-- Lookup `st[w]`: `none` models the JS `undefined` of an absent key. -/
def fsGet (st : FilterState) (w : String) : Option Bool :=
  (st.find? (fun p => p.1 == w)).map (fun p => p.2)

/-- Update `{ ...st, [w]: b }`. -/
def fsSet (st : FilterState) (w : String) (b : Bool) : FilterState :=
  (w, b) :: st

/-- Embedding of `toggleWord` (page.tsx): an absent token is set to `false`
outright (`prev[word] === undefined ? false : !prev[word]`); a present token's
flag is negated. -/
def toggleWord (st : FilterState) (w : String) : FilterState :=
  fsSet st w (match fsGet st w with
    | none => false
    | some b => !b)

/-- Embedding of the token-ingestion step of `processAndAddFiles` (page.tsx):
fold the new token list over the state, adding `!isDefaultExcluded word` for
each token whose key is still `undefined` and leaving every present entry
untouched. -/
def ingestTokens (st : FilterState) (ws : List String) : FilterState :=
  ws.foldl (fun s w => if fsGet s w = none then fsSet s w (!isDefaultExcluded w) else s) st

/-! ## Word-Filter extraction -/

/-- Stable insertion of `x` into an already sorted list: `x` goes before the
first element that is not strictly below it, so elements comparing equal keep
their original relative order. -/
def insertStable {α : Type} (le : α → α → Bool) (x : α) : List α → List α
  | [] => [x]
  | y :: ys => if le y x && !le x y then y :: insertStable le x ys else x :: y :: ys

/-- A stable sort by straight insertion. `Array.prototype.sort` is required to
be stable since ES2019, and on a total preorder the stable sorted permutation
is unique, so this models the host sort exactly; it is structurally recursive
so concrete runs reduce in the kernel. -/
def sortStable {α : Type} (le : α → α → Bool) : List α → List α
  | [] => []
  | x :: xs => insertStable le x (sortStable le xs)

/-- Embedding of `extractUniqueWords` (page.tsx): for grids of at least 4
rows, every cell with row index ≥ 4 in every column with index from 2 up to
the header-row (row 3) length is normalized to a token and collected into a
set, presented sorted; the header cell's content is never consulted. The JS
`Set` plus default `sort()` is modelled as `dedup` plus a stable sort under
the code-unit order (all tokens of interest are ASCII, where the default
string comparison and this order agree). -/
def extractUniqueWords (g : List (List JsVal)) : List String :=
  if g.length < 4 then []
  else
    sortStable strLe
      ((List.range' 2 ((g.getD 3 []).length - 2)).flatMap fun c =>
        (List.range' 4 (g.length - 4)).map fun r => jsWord (cellAt g r c)).dedup

/-- Display-only date label of an aggregated count. The source renders via
`toLocaleDateString`, a host- and locale-dependent formatting outside the
model; the stand-in keeps the raw value's string form. No claim inspects this
field. -/
def formatDateModel (v : JsVal) : String :=
  if jsTruthy v then jsToString v else "N/A"

/-- One aggregated count of the Word-Filter variant. -/
structure WfCount where
  date : String
  rawDate : JsVal
  column : ℕ
  count : ℕ
deriving DecidableEq, Repr

/-- The result object `{ counts }` of `processExcelData`. -/
structure WfResult where
  counts : List WfCount
deriving DecidableEq, Repr

/-- Embedding of `processExcelData` (page.tsx): grids of fewer than 4 rows
yield `{ counts: [] }`; otherwise, for each column of the header row (index 3)
from index 2 on whose header cell is truthy, the data cells of rows ≥ 4 are
normalized to tokens and those whose filter-state flag is not `false` are
counted. -/
def processExcelData (g : List (List JsVal)) (st : FilterState) : WfResult :=
  if g.length < 4 then ⟨[]⟩
  else
    let dateRow := g.getD 3 []
    ⟨(List.range' 2 (dateRow.length - 2)).filterMap fun c =>
      let dv := dateRow.getD c .undef
      if jsTruthy dv then
        some { date := formatDateModel dv
               rawDate := dv
               column := c
               count := ((List.range' 4 (g.length - 4)).filter fun r =>
                 fsGet st (jsWord (cellAt g r c)) ≠ some false).length }
      else none⟩

/-! ## UTC calendar arithmetic (model of the host Date built-ins)

The proleptic Gregorian conversions between an epoch day count
(days since 1970-01-01) and a civil (year, month, day) triple, as the
ECMA-262 UTC calendar computes them. Divisions are truncating on
guaranteed-nonnegative operands, so Lean's integer division matches. -/

/-- Civil (year, month, day) of an epoch day count, UTC calendar. -/
def civilFromDays (z0 : ℤ) : ℤ × ℕ × ℕ :=
  let z := z0 + 719468
  let era : ℤ := (if 0 ≤ z then z else z - 146096) / 146097
  let doe : ℤ := z - era * 146097
  let yoe : ℤ := (doe - doe / 1460 + doe / 36524 - doe / 146096) / 365
  let y : ℤ := yoe + era * 400
  let doy : ℤ := doe - (365 * yoe + yoe / 4 - yoe / 100)
  let mp : ℤ := (5 * doy + 2) / 153
  let d : ℤ := doy - (153 * mp + 2) / 5 + 1
  let m : ℤ := mp + (if mp < 10 then 3 else -9)
  (y + (if m ≤ 2 then 1 else 0), m.toNat, d.toNat)

/-- Epoch day count of a civil (year, month, day), month given as an integer
in 1..12, UTC calendar. -/
def daysFromCivil (y0 : ℤ) (m : ℤ) (d : ℤ) : ℤ :=
  let y := y0 - (if m ≤ 2 then 1 else 0)
  let era : ℤ := (if 0 ≤ y then y else y - 399) / 400
  let yoe : ℤ := y - era * 400
  let mp : ℤ := (m + 9) % 12
  let doy : ℤ := (153 * mp + 2) / 5 + d - 1
  let doe : ℤ := yoe * 365 + yoe / 4 - yoe / 100 + doy
  era * 146097 + doe - 719468

/-- Model of `Date.UTC(y, m0, d)` restricted to the day grain, returning an
epoch day count: `m0` is the JS 0-based month and, as in the host, months and
days outside their ranges roll over into adjacent months and years. -/
def dateUTCdays (y m0 d : ℤ) : ℤ :=
  daysFromCivil (y + Int.fdiv m0 12) (Int.emod m0 12 + 1) 1 + (d - 1)

/-- Two-digit zero padding, as `String(n).padStart(2, '0')`. -/
def pad2 (n : ℕ) : String :=
  if n < 10 then "0" ++ toString n else toString n

/-- Embedding of `toIsoDateString` (Metric variant source): renders the UTC
calendar day of a `Date` instant as `YYYY-MM-DD` using the UTC getters; the
instant's epoch milliseconds are floored to a day count exactly as
`getUTCFullYear`/`getUTCMonth`/`getUTCDate` do. -/
def toIsoDateString (ms : ℤ) : String :=
  let ymd := civilFromDays (Int.fdiv ms 86400000)
  toString ymd.1 ++ "-" ++ pad2 ymd.2.1 ++ "-" ++ pad2 ymd.2.2

/-- Ceiling of `a / 7` on integers, as `Math.ceil` computes it on the exact
quotient. -/
def ceilDiv7 (a : ℤ) : ℤ := Int.fdiv (a + 6) 7

/-- `Number(s)` on the digit-only fields of a canonical date string — the only
shapes `getWeekNumber` receives, since it is applied to `toIsoDateString`
output (a possible leading `-` of a negative year is honoured for totality). -/
def numFieldVal (s : String) : ℤ :=
  match s.toList with
  | '-' :: r => -(digitsVal r : ℤ)
  | r => (digitsVal r : ℤ)

/-- Embedding of `getWeekNumber` (Metric variant source): splits a
`YYYY-MM-DD` string, rebuilds the UTC instant, takes the 1-based day of the
year and the weekday of January 1 (0 = Sunday, epoch day 0 being a Thursday),
and returns `ceil((dayOfYear + weekdayOfJan1) / 7)`. A string that does not
split into three fields leaves the computation with `0` placeholders, as JS
`undefined` arithmetic would not occur on the pipeline's inputs. -/
def getWeekNumber (dateStr : String) : ℤ :=
  match (splitOnDash dateStr).map numFieldVal with
  | [y, m, d] =>
    let current := dateUTCdays y (m - 1) d
    let jan1 := dateUTCdays y 0 1
    let dayOfYear := current - jan1 + 1
    let dayOfWeekJan1 := Int.emod (jan1 + 4) 7
    ceilDiv7 (dayOfYear + dayOfWeekJan1)
  | _ => 0

/-! ## Date-cell parsing (Metric variant) -/

/-- Leap-year rule of the Gregorian calendar. -/
def isLeap (y : ℤ) : Bool := (y % 4 == 0 && y % 100 != 0) || y % 400 == 0

/-- Days in a month. -/
def daysInMonth (y : ℤ) (m : ℕ) : ℕ :=
  if m = 2 then (if isLeap y then 29 else 28)
  else if m = 4 ∨ m = 6 ∨ m = 9 ∨ m = 11 then 30
  else 31

/-- Epoch milliseconds of a wall-clock reading, fields already validated. -/
def wallMs (y : ℤ) (m d h mi se : ℕ) : ℤ :=
  daysFromCivil y m d * 86400000 + h * 3600000 + mi * 60000 + se * 1000

/-- Model of `new Date(s).getTime()` for the ECMA-262 mandated ISO 8601
subset, parameterized by the evaluating process's local offset `tz` in
minutes east of UTC: a date-only form `YYYY-MM-DD` is interpreted as UTC
midnight; a date-time form `YYYY-MM-DDTHH:MM[:SS]` without a timezone
designator is interpreted as LOCAL time (ES2017+), shifting the instant by
`-tz` minutes; a trailing `Z` marks UTC. Out-of-range fields give `none`
(`NaN`). Fractional seconds, explicit `±hh:mm` offsets, expanded years and the
engine-specific legacy formats are outside the model; the engine-dependent
parses are not relied on by any claim. -/
def jsParseDate (tz : ℤ) (s : String) : Option ℤ :=
  let dateOk : ℤ → ℕ → ℕ → Bool := fun y m d =>
    1 ≤ m && m ≤ 12 && 1 ≤ d && decide (d ≤ daysInMonth y m)
  let timeOk : ℕ → ℕ → ℕ → Bool := fun h mi se => h ≤ 23 && mi ≤ 59 && se ≤ 59
  match s.toList with
  | [y1, y2, y3, y4, '-', m1, m2, '-', d1, d2] =>
    if [y1, y2, y3, y4, m1, m2, d1, d2].all isDig then
      let y : ℤ := (digitsVal [y1, y2, y3, y4] : ℤ)
      let m := digitsVal [m1, m2]
      let d := digitsVal [d1, d2]
      if dateOk y m d then some (daysFromCivil y m d * 86400000) else none
    else none
  | [y1, y2, y3, y4, '-', m1, m2, '-', d1, d2, 'T', h1, h2, ':', n1, n2] =>
    if [y1, y2, y3, y4, m1, m2, d1, d2, h1, h2, n1, n2].all isDig then
      let y : ℤ := (digitsVal [y1, y2, y3, y4] : ℤ)
      let m := digitsVal [m1, m2]
      let d := digitsVal [d1, d2]
      let h := digitsVal [h1, h2]
      let mi := digitsVal [n1, n2]
      if dateOk y m d && timeOk h mi 0 then some (wallMs y m d h mi 0 - tz * 60000) else none
    else none
  | [y1, y2, y3, y4, '-', m1, m2, '-', d1, d2, 'T', h1, h2, ':', n1, n2, 'Z'] =>
    if [y1, y2, y3, y4, m1, m2, d1, d2, h1, h2, n1, n2].all isDig then
      let y : ℤ := (digitsVal [y1, y2, y3, y4] : ℤ)
      let m := digitsVal [m1, m2]
      let d := digitsVal [d1, d2]
      let h := digitsVal [h1, h2]
      let mi := digitsVal [n1, n2]
      if dateOk y m d && timeOk h mi 0 then some (wallMs y m d h mi 0) else none
    else none
  | [y1, y2, y3, y4, '-', m1, m2, '-', d1, d2, 'T', h1, h2, ':', n1, n2, ':', s1, s2] =>
    if [y1, y2, y3, y4, m1, m2, d1, d2, h1, h2, n1, n2, s1, s2].all isDig then
      let y : ℤ := (digitsVal [y1, y2, y3, y4] : ℤ)
      let m := digitsVal [m1, m2]
      let d := digitsVal [d1, d2]
      let h := digitsVal [h1, h2]
      let mi := digitsVal [n1, n2]
      let se := digitsVal [s1, s2]
      if dateOk y m d && timeOk h mi se then some (wallMs y m d h mi se - tz * 60000) else none
    else none
  | _ => none

/-- Model of `XLSX.SSF.parse_date_code` (external xlsx library), date part
only: the value is floored; serial 60 is the phantom 1900-02-29 of the 1900
leap-year bug; serials above 60 count days from 1899-12-30 (serial 25569 is
1970-01-01); serials 0..59 count days from 1899-12-31; negative serials give
`null`. -/
def parse_date_code (v : ℚ) : Option (ℤ × ℕ × ℕ) :=
  let n := v.floor
  if n < 0 then none
  else if n = 60 then some (1900, 2, 29)
  else if 60 < n then some (civilFromDays (n - 25569))
  else some (civilFromDays (n - 25568))

/-- The date-parsing step of the Metric header loop for one cell value
(`processExcelFile`): a native `Date` passes through; a string goes through
`new Date(value)` with its `NaN` check; a number goes through the serial-date
decoder and `Date.UTC(y, m - 1, d)`; other values yield no date. -/
def tryParseDateCell (tz : ℤ) (v : JsVal) : Option ℤ :=
  match v with
  | .jsdate ms => some ms
  | .str s => jsParseDate tz s
  | .num q =>
    match parse_date_code q with
    | some ymd => some (dateUTCdays ymd.1 (ymd.2.1 - 1) ymd.2.2 * 86400000)
    | none => none
  | _ => none

/-- Date normalization of one Metric header cell: the parsed instant rendered
canonically by `toIsoDateString`. -/
def normalizeDateCell (tz : ℤ) (v : JsVal) : Option String :=
  (tryParseDateCell tz v).map toIsoDateString

/-- Embedding of the date-header loop of `processExcelFile`: scan the header
cells left to right; a falsy cell or the literal string `'Total'` is skipped
(the loop continues); every other cell that parses as a date contributes its
canonical string. -/
def collectDates (tz : ℤ) : List JsVal → List String
  | [] => []
  | v :: rest =>
    (if jsTruthy v ∧ v ≠ .str "Total" then
      match normalizeDateCell tz v with
      | some d => [d]
      | none => []
    else []) ++ collectDates tz rest

/-- Canonical row of the Metric variant (`ProcessedRow` in the source; the
spaced field names of the TS interface are camel-cased). -/
structure ProcessedRow where
  Date : String
  week : ℤ
  capacityReliabilityScore : ℚ
  completedRoutes : Option ℚ
  amazonPaidCancels : Option ℚ
  dspDroppedRoutes : Option ℚ
  reliabilityTarget : Option ℚ
  routeTarget : Option ℚ
  flexUpRouteTarget : Option ℚ
  finalScheduled : Option ℚ
  dspAvailableCapacity : Option ℚ
deriving DecidableEq, Repr

/-- One metric read of `processExcelFile`: the guard
`data[k] && dataColIndex < data[k].length` fails exactly when the row is
missing or too short, in which case the field keeps its default; inside the
guard the cell goes through `parseNumber`. -/
def metricAt (data : List (List JsVal)) (rowIdx colIdx : ℕ) : Option ℚ :=
  match data.get? rowIdx with
  | some row =>
    match row.get? colIdx with
    | some x => parseNumber x
    | none => none
  | none => none

/-- Construction of one `ProcessedRow` of `processExcelFile` for the date at
position `dateIdx` of the collected date list: all nine metrics are read at
grid column `dateIdx + 1`, and the capacity score defaults to `0` through
`parseNumber(...) || 0`. -/
def mkRow (data : List (List JsVal)) (dateStr : String) (dateIdx : ℕ) : ProcessedRow :=
  let c := dateIdx + 1
  { Date := dateStr
    week := getWeekNumber dateStr
    capacityReliabilityScore := (metricAt data 1 c).getD 0
    completedRoutes := metricAt data 2 c
    amazonPaidCancels := metricAt data 3 c
    dspDroppedRoutes := metricAt data 4 c
    reliabilityTarget := metricAt data 5 c
    routeTarget := metricAt data 6 c
    flexUpRouteTarget := metricAt data 7 c
    finalScheduled := metricAt data 8 c
    dspAvailableCapacity := metricAt data 9 c }

/-- Embedding of `processExcelFile` (Metric variant source), from the decoded
grid on: an empty grid makes `data[0].length` throw (`none`); otherwise the
date headers are collected from row 0, columns 1 onward, and one row is built
per collected date. -/
def processExcelFile (tz : ℤ) (data : List (List JsVal)) : Option (List ProcessedRow) :=
  match data with
  | [] => none
  | dateRow :: _ =>
    let dates := collectDates tz (dateRow.drop 1)
    some (dates.enum.map fun p => mkRow data p.2 p.1)

/-! ## Grid Encoder (Metric variant) -/

/-- The fixed header-row field names of the compiled sheet, in the order
`generateCompiledExcel` lays them out. -/
def headerNames : List String :=
  ["Date", "Week#", "Capacity reliability score", "Completed routes",
   "Amazon paid cancels", "DSP dropped routes", "Reliability target",
   "Route target", "Flex-up route target", "Final scheduled",
   "DSP available capacity"]

/-- A nullable metric as a sheet value (`json_to_sheet` drops null cells). -/
def optCell (o : Option ℚ) : JsVal :=
  match o with
  | some q => .num q
  | none => .null

/-- One worksheet data row of `generateCompiledExcel`, in the fixed field
order. -/
def rowFields (r : ProcessedRow) : List JsVal :=
  [.str r.Date, .num (r.week : ℚ), .num r.capacityReliabilityScore,
   optCell r.completedRoutes, optCell r.amazonPaidCancels,
   optCell r.dspDroppedRoutes, optCell r.reliabilityTarget,
   optCell r.routeTarget, optCell r.flexUpRouteTarget,
   optCell r.finalScheduled, optCell r.dspAvailableCapacity]

/-- The encoded workbook: header row, data rows, the column carrying the
`'0.0%'` display format, and the fixed column widths. -/
structure EncodedWorkbook where
  header : List String
  rows : List (List JsVal)
  percentFormatColumn : ℕ
  colWidths : List ℕ
deriving DecidableEq, Repr

/-- The comparator of `allRows.sort((a, b) => a.Date.localeCompare(b.Date))`
as a boolean order: on the fixed-width ASCII `YYYY-MM-DD` strings the locale
comparison coincides with the code-unit order. -/
def dateLe (a b : ProcessedRow) : Bool := strLe a.Date b.Date

/-- Embedding of `generateCompiledExcel` (Metric variant source). The call
begins with the in-place `Array.prototype.sort` on the caller's array — a
stable sort since ES2019, modelled by `sortStable` — so the result carries
both the caller-visible post-call state of that array (first component) and
the encoded workbook built from it: one header row, one data row per input
row in the fixed field order, the `'0.0%'` number format on column 2, and the
fixed per-column widths. -/
def generateCompiledExcel (allRows : List ProcessedRow) :
    List ProcessedRow × EncodedWorkbook :=
  let sorted := sortStable dateLe allRows
  (sorted,
    { header := headerNames
      rows := sorted.map rowFields
      percentFormatColumn := 2
      colWidths := [15, 8, 22, 18, 20, 18, 18, 14, 20, 16, 22] })

/-! ## Concrete grids and rows used by the claim theorems -/

/-- A Metric grid whose second header cell is a non-date string: the date in
column 2 is collected, while the metric reads stay at column `dateIdx + 1`. -/
def skewedMetricGrid : List (List JsVal) :=
  [[.str "Label", .str "x", .num 45000],
   [.str "Cap", .num 7, .num 9]]

/-- A Metric grid with a `'Total'` header cell left of a date cell. -/
def totalMetricGrid : List (List JsVal) :=
  [[.str "L", .str "Total", .num 45000]]

/-- A Metric grid of a single row. -/
def oneRowMetricGrid : List (List JsVal) :=
  [[.str "L", .num 45000]]

/-- A Word-Filter grid whose header row has an empty cell at column 2 and a
date at column 3; the token `A` occurs only under the empty header. -/
def emptyHeaderGrid : List (List JsVal) :=
  [[], [], [],
   [.str "h0", .str "h1", .str "", .str "2023-01-05"],
   [.str "x", .str "y", .str "A", .str "B"]]

/-- A Word-Filter grid of only three rows. -/
def threeRowGrid : List (List JsVal) :=
  [[.str "a"], [.str "b"], [.str "c"]]

/-- A concrete sorted row pair for exercising the encoder. -/
def sampleRowA : ProcessedRow :=
  { Date := "2024-01-05", week := 1, capacityReliabilityScore := 1,
    completedRoutes := none, amazonPaidCancels := none, dspDroppedRoutes := none,
    reliabilityTarget := none, routeTarget := none, flexUpRouteTarget := none,
    finalScheduled := none, dspAvailableCapacity := none }

/-- A second sample row, later in date order. -/
def sampleRowB : ProcessedRow :=
  { sampleRowA with Date := "2024-02-20", week := 8 }

/-! ## Helper lemmas on the filter state -/

/-- Lookup after an update at the same key. -/
theorem fsGet_fsSet_self (st : FilterState) (w : String) (b : Bool) :
    fsGet (fsSet st w b) w = some b := by
  simp [fsGet, fsSet, List.find?_cons]

/-- Lookup after an update at a different key. -/
theorem fsGet_fsSet_ne (st : FilterState) (w w2 : String) (b : Bool) (h : w ≠ w2) :
    fsGet (fsSet st w b) w2 = fsGet st w2 := by
  simp [fsGet, fsSet, List.find?_cons, h]

/-- One ingestion step. -/
theorem ingestTokens_cons (st : FilterState) (w : String) (ws : List String) :
    ingestTokens st (w :: ws) =
      ingestTokens (if fsGet st w = none then fsSet st w (!isDefaultExcluded w) else st) ws :=
  rfl

/-- Ingestion never changes a present flag. -/
theorem ingestTokens_preserves (ws : List String) (st : FilterState) (w : String) (b : Bool)
    (h : fsGet st w = some b) : fsGet (ingestTokens st ws) w = some b := by
  induction ws generalizing st with
  | nil => exact h
  | cons w2 rest ih =>
    rw [ingestTokens_cons]
    by_cases h2 : fsGet st w2 = none
    · rw [if_pos h2]
      apply ih
      rcases eq_or_ne w2 w with rfl | hne
      · rw [h] at h2; cases h2
      · rw [fsGet_fsSet_ne _ _ _ _ hne]; exact h
    · rw [if_neg h2]; exact ih _ h

/-- Ingestion assigns the computed default to an absent ingested token. -/
theorem ingestTokens_adds (ws : List String) (st : FilterState) (w : String)
    (habs : fsGet st w = none) (hmem : w ∈ ws) :
    fsGet (ingestTokens st ws) w = some (!isDefaultExcluded w) := by
  induction ws generalizing st with
  | nil => cases hmem
  | cons w2 rest ih =>
    rw [ingestTokens_cons]
    rcases eq_or_ne w w2 with rfl | hne
    · rw [if_pos habs]
      exact ingestTokens_preserves rest _ w _ (fsGet_fsSet_self st w _)
    · have hrest : w ∈ rest := by
        cases hmem with
        | head => exact absurd rfl hne
        | tail _ h => exact h
      by_cases h2 : fsGet st w2 = none
      · rw [if_pos h2]
        refine ih _ ?_ hrest
        rw [fsGet_fsSet_ne _ _ _ _ (Ne.symm hne)]; exact habs
      · rw [if_neg h2]; exact ih st habs hrest

/-- Ingestion leaves a token absent when it is absent and not ingested. -/
theorem ingestTokens_absent (ws : List String) (st : FilterState) (w : String)
    (habs : fsGet st w = none) (hnmem : w ∉ ws) :
    fsGet (ingestTokens st ws) w = none := by
  induction ws generalizing st with
  | nil => exact habs
  | cons w2 rest ih =>
    rw [ingestTokens_cons]
    have hne : w ≠ w2 := fun h => hnmem (h ▸ List.mem_cons_self w2 rest)
    have hrest : w ∉ rest := fun h => hnmem (List.mem_cons_of_mem _ h)
    by_cases h2 : fsGet st w2 = none
    · rw [if_pos h2]
      refine ih _ ?_ hrest
      rw [fsGet_fsSet_ne _ _ _ _ (Ne.symm hne)]; exact habs
    · rw [if_neg h2]; exact ih st habs hrest

/-! ## Helper lemmas on the stable sort -/

/-- Inserting an element below the whole list puts it in front. -/
theorem insertStable_of_le {α : Type} (le : α → α → Bool) (x : α) (l : List α)
    (h : ∀ y ∈ l, le x y = true) : insertStable le x l = x :: l := by
  cases l with
  | nil => rfl
  | cons y ys =>
    have hy := h y (List.mem_cons_self y ys)
    simp [insertStable, hy]

/-- A sorted list is a fixed point of the stable sort. -/
theorem sortStable_of_pairwise {α : Type} (le : α → α → Bool) (l : List α)
    (h : l.Pairwise (fun a b => le a b = true)) : sortStable le l = l := by
  induction l with
  | nil => rfl
  | cons x xs ih =>
    rw [List.pairwise_cons] at h
    rw [sortStable, ih h.2, insertStable_of_le le x xs h.1]

/-- Stable insertion preserves membership. -/
theorem mem_insertStable {α : Type} (le : α → α → Bool) (x a : α) (l : List α) :
    a ∈ insertStable le x l ↔ a = x ∨ a ∈ l := by
  induction l with
  | nil => simp [insertStable]
  | cons y ys ih =>
    rw [insertStable]
    split
    all_goals simp only [List.mem_cons, ih]
    all_goals tauto

/-- The stable sort preserves membership. -/
theorem mem_sortStable {α : Type} (le : α → α → Bool) (a : α) (l : List α) :
    a ∈ sortStable le l ↔ a ∈ l := by
  induction l with
  | nil => exact Iff.rfl
  | cons x xs ih => simp [sortStable, mem_insertStable, ih]

/-! ## Claim theorems -/

/-- C1 (code bug): the claim says each MetricRow's nine numeric fields are read
from the same grid column as the date header cell that produced the row's
date, also when earlier header columns were skipped. The code instead reads
column `dateIdx + 1` of the collected-date position. On a grid whose header
column 1 is a non-date string and whose date sits in column 2, the emitted
row's capacity score is `7` — the cell of the skipped column 1 — and not `9`,
the cell of the date's own column 2, contradicting the claim's alignment. -/
theorem metric_columns_misaligned_after_skip :
    (processExcelFile 0 skewedMetricGrid).map
        (fun rows => rows.map fun r => (r.Date, r.capacityReliabilityScore)) =
      some [("2023-03-15", 7)] ∧
    cellAt skewedMetricGrid 0 2 = JsVal.num 45000 ∧
    cellAt skewedMetricGrid 1 2 = JsVal.num 9 ∧
    cellAt skewedMetricGrid 1 1 = JsVal.num 7 ∧
    normalizeDateCell 0 (JsVal.str "x") = none := by
  refine ⟨by decide, by decide, by decide, by decide, by decide⟩

/-- C2 counterexample: the header cell of `emptyHeaderGrid` at row 3, column 2
is the empty string, the count extractor accordingly emits counts only for
column 3, yet the token inventory still contains the token `A` that occurs
only in column 2 — so inventory extraction does not mirror the column-skip
rule. Under the claim the inventory would be `["B"]`. -/
theorem extractUniqueWords_not_mirroring_column_skip :
    cellAt emptyHeaderGrid 3 2 = JsVal.str "" ∧
    extractUniqueWords emptyHeaderGrid = ["A", "B"] ∧
    (processExcelData emptyHeaderGrid []).counts.map WfCount.column = [3] := by
  refine ⟨by decide, by decide, by decide⟩

/-- C2 amended: the unique-token inventory of the Word-Filter variant scans
every data-region column from index 2 up to the header-row length, with no
regard to the header cell's content: the token of any data cell in that range
is in the inventory, also when its column's header is empty. -/
theorem extractUniqueWords_scans_all_columns (g : List (List JsVal)) (r c : ℕ)
    (hg : 4 ≤ g.length) (hr4 : 4 ≤ r) (hr : r < g.length)
    (hc2 : 2 ≤ c) (hc : c < (g.getD 3 []).length) :
    jsWord (cellAt g r c) ∈ extractUniqueWords g := by
  unfold extractUniqueWords
  rw [if_neg (by omega)]
  rw [mem_sortStable, List.mem_dedup]
  apply List.mem_flatMap.mpr
  refine ⟨c, ?_, ?_⟩
  · rw [List.mem_range']
    exact ⟨c - 2, by omega, by omega⟩
  · apply List.mem_map.mpr
    refine ⟨r, ?_, rfl⟩
    rw [List.mem_range']
    exact ⟨r - 4, by omega, by omega⟩

/-- C2 amended, witness: the empty-header column 2 of `emptyHeaderGrid`
contributes its token to the inventory. -/
theorem extractUniqueWords_scans_all_columns_witness :
    jsWord (cellAt emptyHeaderGrid 4 2) ∈ extractUniqueWords emptyHeaderGrid :=
  extractUniqueWords_scans_all_columns emptyHeaderGrid 4 2 (by decide) (by decide)
    (by decide) (by decide) (by decide)

/-- C3 (code bug): date normalization of a date-like string is not
timezone-independent. The ISO date-time string without timezone designator
`2024-03-10T00:00` denotes the calendar day 2024-03-10, but the host parses it
as local time: at offset UTC+0 the pipeline emits `2024-03-10`, at offset
UTC+5 (300 minutes) it emits `2024-03-09`, refuting the two-run
noninterference the claim states. -/
theorem normalizeDate_depends_on_timezone :
    normalizeDateCell 0 (JsVal.str "2024-03-10T00:00") = some "2024-03-10" ∧
    normalizeDateCell 300 (JsVal.str "2024-03-10T00:00") = some "2024-03-09" ∧
    ¬(∀ tz1 tz2 : ℤ, ∀ v : JsVal, normalizeDateCell tz1 v = normalizeDateCell tz2 v) := by
  refine ⟨by decide, by decide, fun h => ?_⟩
  have h2 := h 0 300 (JsVal.str "2024-03-10T00:00")
  revert h2
  decide

/-- C4 counterexample: toggling the absent token `42` (default-excluded, so
the claim's materialize-then-flip semantics would yield `true`) stores
`false`: the code sets an absent token to `false` outright. -/
theorem toggleWord_absent_not_default_negation :
    ¬(fsGet (toggleWord ([] : FilterState) "42") "42" = some (!classifyDefault "42")) := by
  decide

/-- C4 amended: toggling a token present in the state negates its stored
flag; toggling an absent token stores `false` unconditionally, regardless of
the token's computed default. -/
theorem toggleWord_flag (st : FilterState) (w : String) :
    fsGet (toggleWord st w) w =
      some (match fsGet st w with
        | none => false
        | some b => !b) := by
  unfold toggleWord
  exact fsGet_fsSet_self st w _

/-- C5: ingestion adds an entry with its computed default exactly for absent
ingested tokens and leaves every present entry's flag unchanged — hence
re-ingesting a document's tokens never changes a flag previously set by a
toggle; tokens absent and not ingested stay absent. -/
theorem ingestTokens_spec (st : FilterState) (ws : List String) :
    (∀ w b, fsGet st w = some b → fsGet (ingestTokens st ws) w = some b) ∧
    (∀ w, fsGet st w = none → w ∈ ws →
      fsGet (ingestTokens st ws) w = some (classifyDefault w)) ∧
    (∀ w, fsGet st w = none → w ∉ ws → fsGet (ingestTokens st ws) w = none) :=
  ⟨fun w b h => ingestTokens_preserves ws st w b h,
   fun w habs hmem => ingestTokens_adds ws st w habs hmem,
   fun w habs hnmem => ingestTokens_absent ws st w habs hnmem⟩

/-- C5 witness: in a state where a toggle stored `false` for `Called Out`,
re-ingesting `Called Out` keeps `false`, and the fresh token `42` receives its
computed default. -/
theorem ingestTokens_spec_witness :
    fsGet (ingestTokens [("Called Out", false)] ["Called Out", "42"]) "Called Out" =
        some false ∧
    fsGet (ingestTokens [("Called Out", false)] ["Called Out", "42"]) "42" =
        some (classifyDefault "42") :=
  ⟨(ingestTokens_spec [("Called Out", false)] ["Called Out", "42"]).1 "Called Out" false
      (by decide),
   (ingestTokens_spec [("Called Out", false)] ["Called Out", "42"]).2.1 "42"
      (by decide) (by decide)⟩

/-- C6 counterexample: in a Metric grid whose header is
`[label, 'Total', serial 45000]` the column right of the `'Total'` cell is
still treated as a date column — one row with date `2023-03-15` is emitted —
so a `'Total'` header does not terminate the date axis. -/
theorem total_header_does_not_terminate_axis :
    (processExcelFile 0 totalMetricGrid).map (fun rows => rows.map ProcessedRow.Date) =
      some ["2023-03-15"] := by
  decide

/-- C6 amended: a header cell equal to `'Total'` or empty is skipped — it
contributes no date column itself — but scanning continues: the collected
dates are exactly those of the cells around it, and columns to its right may
still become date columns. -/
theorem collectDates_skips_and_continues (tz : ℤ) (l1 l2 : List JsVal) :
    collectDates tz (l1 ++ JsVal.str "Total" :: l2) =
      collectDates tz l1 ++ collectDates tz l2 ∧
    collectDates tz (l1 ++ JsVal.str "" :: l2) =
      collectDates tz l1 ++ collectDates tz l2 := by
  induction l1 with
  | nil =>
    have hb : jsTruthy (JsVal.str "") = false := by decide
    constructor <;> simp [collectDates, hb]
  | cons v rest ih =>
    constructor <;> simp [collectDates, ih.1, ih.2]

/-- C7 counterexample: a three-row Word-Filter grid is processed without any
error, yielding the empty counts object and the empty inventory, and a
one-row Metric grid (fewer than the claimed minimum of 2) also succeeds —
schema location does not fail on too-small grids. -/
theorem small_grids_do_not_error :
    processExcelData threeRowGrid [] = ⟨[]⟩ ∧
    extractUniqueWords threeRowGrid = [] ∧
    (processExcelFile 0 oneRowMetricGrid).isSome = true := by
  refine ⟨by decide, by decide, by decide⟩

/-- C7 amended: a Word-Filter grid of fewer than 4 rows yields the empty
result and the empty inventory, with no error; the Metric variant throws only
on a grid with zero rows (reading the length of the missing row 0), and
processes any nonempty grid. -/
theorem small_grid_behavior (g : List (List JsVal)) (st : FilterState) (tz : ℤ)
    (h : g.length < 4) :
    processExcelData g st = ⟨[]⟩ ∧ extractUniqueWords g = [] ∧
    processExcelFile tz [] = none ∧
    ∀ row rest, (processExcelFile tz (row :: rest)).isSome = true := by
  refine ⟨?_, ?_, rfl, fun row rest => rfl⟩
  · unfold processExcelData
    rw [if_pos h]
  · unfold extractUniqueWords
    rw [if_pos h]

/-- C7 amended, witness. -/
theorem small_grid_behavior_witness :
    processExcelData threeRowGrid [] = ⟨[]⟩ ∧ extractUniqueWords threeRowGrid = [] ∧
    processExcelFile 0 [] = none ∧
    ∀ row rest, (processExcelFile 0 (row :: rest)).isSome = true :=
  small_grid_behavior threeRowGrid [] 0 (by decide)

/-- C8: the encoder is a pure function of its input, and for a sorted input
row collection the caller's array is unchanged by the call: the in-place
stable sort of an already date-sorted collection is the identity, so the
post-call state of the caller's rows equals the input, element for element in
order. -/
theorem generateCompiledExcel_preserves_sorted_input (rows : List ProcessedRow)
    (h : rows.Pairwise (fun a b => dateLe a b = true)) :
    (generateCompiledExcel rows).1 = rows := by
  unfold generateCompiledExcel
  exact sortStable_of_pairwise dateLe rows h

/-- C8 witness: a concrete sorted two-row collection is returned unchanged. -/
theorem generateCompiledExcel_preserves_sorted_input_witness :
    (generateCompiledExcel [sampleRowA, sampleRowB]).1 = [sampleRowA, sampleRowB] :=
  generateCompiledExcel_preserves_sorted_input [sampleRowA, sampleRowB] (by
    rw [List.pairwise_cons]
    exact ⟨fun b hb => by
      rw [List.mem_singleton] at hb
      subst hb
      decide, by
      rw [List.pairwise_cons]
      exact ⟨fun b hb => absurd hb (List.not_mem_nil b), List.Pairwise.nil⟩⟩)

/-- C9: the default classification excludes exactly the BLANK sentinel, the
tokens whose whole text converts to a number (`!isNaN(Number(w))` with a
nonblank trim), and the tokens whose lowercase form starts with the reserved
phrase `dsp initiated work`; the four concrete cases of the claim evaluate as
stated. -/
theorem classifyDefault_spec :
    classifyDefault "__BLANK__" = false ∧ classifyDefault "42" = false ∧
    classifyDefault "DSP Initiated Work - reason" = false ∧
    classifyDefault "Called Out" = true ∧
    ∀ w, classifyDefault w = false ↔
      (w = BLANK ∨ (jsIsNumericString w = true ∧ jsTrim w ≠ "") ∨
        startsWithStr (toLowerStr w) "dsp initiated work" = true) := by
  refine ⟨by decide, by decide, by decide, by decide, fun w => ?_⟩
  unfold classifyDefault isDefaultExcluded
  split_ifs with h1 h2 h3 <;> simp_all

/-- C10: a falsy non-string data cell — the number `0`, the boolean `false`,
and every other falsy value — normalizes to the BLANK sentinel and not to the
token `0`, because the coercion `String(cellValue || '')` maps falsy values
to the empty string before trimming; the sentinel is then excluded by the
BLANK branch of the default classification, whose numeric branch does not
fire on it. -/
theorem falsy_cells_normalize_to_blank :
    jsWord (JsVal.num 0) = BLANK ∧
    jsWord (JsVal.bool false) = BLANK ∧
    (∀ v, jsTruthy v = false → jsWord v = BLANK) ∧
    jsWord (JsVal.num 0) ≠ "0" ∧
    classifyDefault BLANK = false ∧
    ¬(jsIsNumericString BLANK = true ∧ jsTrim BLANK ≠ "") := by
  refine ⟨by decide, by decide, fun v hv => ?_, by decide, by decide, by decide⟩
  unfold jsWord
  rw [hv]
  simp only [Bool.false_eq_true, if_false]
  decide

/-- C10 witness: the universally quantified part applied at the falsy `null`
cell value. -/
theorem falsy_cells_normalize_to_blank_witness :
    jsWord JsVal.null = BLANK :=
  falsy_cells_normalize_to_blank.2.2.1 JsVal.null (by decide)
